import Mathlib

/-
Verification of the TimeoutCond condition-variable primitive
(go-commons-pool, concurrent/cond.go).

The Go source is shallowly embedded as follows.

* The `hasWaiters` field is a `uint64` updated with `atomic.AddUint64`;
  we model its value as a `Nat` together with explicit reduction
  `% 2 ^ 64`, and model the two `panic` calls as `Except.error`.
* A Go channel created by `make(chan int, 0)` is a capacity-0 channel;
  we model a channel's state as its capacity, its buffered values and
  a closed flag.  The channel *reference* stored in the `signal` field
  is modelled as an index into a list of allocated channel states, so
  that a waiter which captured the old channel and the `signal` field
  pointing at a new channel can be told apart.
* Blocking receives wake for reasons chosen by the scheduler (a send,
  a close, or — in the timeout variant — the timer); the reason is an
  oracle parameter of `Wait` / `WaitWithTimeout`.  Receiving from a
  closed channel yields the zero value with `ok = false`; receiving a
  sent value yields `ok = true`.
* `time.Duration` is Go's `int64`; subtraction wraps, which we model
  with `int64wrap` (reduction into `[-2^63, 2^63)`).
* Go `defer` statements run in LIFO order when the function returns;
  for the step-order claims this is made explicit with a trace model
  (`waitTrace`), where `runDefers` reverses the pushed defer list.
-/

namespace GoCommonsPool

/-- Modulus of Go's `uint64` type, used by the waiter counter. -/
def U64 : Nat := 2 ^ 64

/-- Embeds `addWaiter`: `v := atomic.AddUint64(&cond.hasWaiters, 1)` wraps
modulo `2^64`; the function panics when the incremented value is `0`. -/
def addWaiter (c : Nat) : Except String Nat :=
  let v := (c + 1) % U64
  if v = 0 then
    .error "too many waiters; max is 18446744073709551615"
  else
    .ok v

/-- Embeds `removeWaiter`: `atomic.AddUint64(&cond.hasWaiters, ^uint64(0))`
adds `2^64 - 1` modulo `2^64` (a wrapping decrement); the function panics
when the result is `math.MaxUint64`, i.e. when the counter was `0`. -/
def removeWaiter (c : Nat) : Except String Nat :=
  let v := (c + (U64 - 1)) % U64
  if v = U64 - 1 then
    .error "removeWaiter called more than once after addWaiter"
  else
    .ok v

/-- Embeds `HasWaiters`: `atomic.LoadUint64(&cond.hasWaiters) > 0`. -/
def HasWaiters (c : Nat) : Bool := decide (0 < c)

/-- State of one Go channel of element type `int`. -/
structure Chan where
  capacity : Nat
  buffer : List Int
  isClosed : Bool
deriving DecidableEq

/-- Embeds `make(chan int, 0)`: a fresh open channel with capacity 0. -/
def mkChan : Chan := { capacity := 0, buffer := [], isClosed := false }

/-- Outcome a receiver gets from a channel when no sender is currently
blocked on it: a buffered value with `ok = true`, the zero value with
`ok = false` if the channel is closed, or `none` meaning the receive
blocks. -/
def recvNonBlocking (ch : Chan) : Option (Int × Bool) :=
  match ch.buffer with
  | v :: _ => some (v, true)
  | [] => if ch.isClosed then some (0, false) else none

/-- Embeds the `TimeoutCond` struct.  `L` is the identity of the
caller-supplied `sync.Locker` (an opaque reference, never dereferenced
by the model), `signal` is the index of the current generation channel
in the world's allocation list, and `hasWaiters` is the `uint64`
counter value. -/
structure TimeoutCond where
  L : Nat
  signal : Nat
  hasWaiters : Nat
deriving DecidableEq

/-- A `TimeoutCond` together with the states of all channels it has
allocated; a channel reference is an index into `chans`. -/
structure World where
  chans : List Chan
  cond : TimeoutCond
deriving DecidableEq

/-- Looks up a channel state by reference (total, with a default that
is never reached on indices the program actually stores). -/
def getChan : List Chan → Nat → Chan
  | [], _ => mkChan
  | ch :: _, 0 => ch
  | _ :: rest, i + 1 => getChan rest i

/-- Replaces the channel state at an index. -/
def setChan : List Chan → Nat → Chan → List Chan
  | [], _, _ => []
  | _ :: rest, 0, ch => ch :: rest
  | c :: rest, i + 1, ch => c :: setChan rest i ch

/-- Embeds `NewTimeoutCond(l)`: `TimeoutCond{L: l, signal: make(chan int, 0)}`
with the `hasWaiters` field left at Go's zero value `0`. -/
def NewTimeoutCond (l : Nat) : World :=
  { chans := [mkChan], cond := { L := l, signal := 0, hasWaiters := 0 } }

/-- Effect of Go's `close` on a channel state: the closed flag is set,
capacity and buffered values are untouched. -/
def closeChan (ch : Chan) : Chan :=
  { capacity := ch.capacity, buffer := ch.buffer, isClosed := true }

/-- Embeds `Interrupt`: under the lock, `close(cond.signal)` — a Go
panic if that channel is already closed — followed by
`cond.signal = make(chan int, 0)`, modelled as allocating a fresh
index. -/
def Interrupt (w : World) : Except String World :=
  let ch := getChan w.chans w.cond.signal
  if ch.isClosed then
    .error "close of closed channel"
  else
    let chans1 := setChan w.chans w.cond.signal (closeChan ch)
    .ok { chans := chans1 ++ [mkChan],
          cond := { w.cond with signal := chans1.length } }

/-- Embeds `Signal`: `select { case cond.signal <- 1: default: }`.
`receiverReady` is the scheduler oracle saying whether some goroutine is
currently blocked receiving on the current channel.  A send case on a
closed channel panics; a hand-off to a blocked receiver leaves the
channel state unchanged; a buffered send appends (unreachable at
capacity 0); otherwise the `default` branch does nothing. -/
def Signal (w : World) (receiverReady : Bool) : Except String (World × Bool) :=
  let ch := getChan w.chans w.cond.signal
  if ch.isClosed then
    .error "send on closed channel"
  else if receiverReady then
    .ok (w, true)
  else if ch.buffer.length < ch.capacity then
    let chans1 := setChan w.chans w.cond.signal { ch with buffer := ch.buffer ++ [1] }
    .ok ({ w with chans := chans1 }, true)
  else
    .ok (w, false)

/-- Sequencing of two computations where the first may panic: a panic
propagates, otherwise the second runs on the result. -/
def bindE {α β : Type} (x : Except String α) (f : α → Except String β) :
    Except String β :=
  match x with
  | .error e => .error e
  | .ok a => f a

lemma bindE_ok {α β : Type} (a : α) (f : α → Except String β) :
    bindE (.ok a) f = f a := rfl

/-- Reason a blocked receive on the captured generation channel woke:
a value delivered by `Signal`, or the channel being closed by
`Interrupt`. -/
inductive WakeEvent
  | value (v : Int)
  | closedEv
deriving DecidableEq

/-- Result of `_, ok := <-ch` for a given wake reason: `ok = true` for a
delivered value, `ok = false` when the channel was closed. -/
def recvOk : WakeEvent → Bool
  | .value _ => true
  | .closedEv => false

/-- Whether the wake reason is the close-all event. -/
def isClosedEv : WakeEvent → Bool
  | .value _ => false
  | .closedEv => true

/-- Embeds `Wait`: `addWaiter`; capture `ch := cond.signal`; `L.Unlock`;
`defer removeWaiter; defer L.Lock`; block on `_, ok := <-ch`; on return
the defers run in LIFO order (`L.Lock` first, then `removeWaiter`) and
the result is `!ok`.  The wake reason is the oracle `ev`. -/
def Wait (w : World) (ev : WakeEvent) : Except String (World × Bool) :=
  bindE (addWaiter w.cond.hasWaiters) fun c1 =>
    let ok := recvOk ev
    bindE (removeWaiter c1) fun c2 =>
      .ok ({ w with cond := { w.cond with hasWaiters := c2 } }, !ok)

/-- Which arm of the `select` in `WaitWithTimeout` fired: a generation
event observed at absolute time `endT`, or the `time.After(timeout)`
timer. -/
inductive SelectOutcome
  | genEvent (ev : WakeEvent) (endT : Int)
  | timerFired
deriving DecidableEq

/-- Reduction of an integer into the range of Go's `int64`
(`time.Duration` arithmetic wraps at 64 bits). -/
def int64wrap (x : Int) : Int := (x + 2 ^ 63) % 2 ^ 64 - 2 ^ 63

/-- Embeds `WaitWithTimeout`: same registration and defer protocol as
`Wait`; `begin := time.Now().UnixNano()` immediately before the
`select`; on a generation event the result is
`(timeout - time.Duration(end-begin), !ok)` in wrapping `int64`
arithmetic; on the timer firing the result is `(0, false)`. -/
def WaitWithTimeout (w : World) (timeout beginT : Int) (out : SelectOutcome) :
    Except String (World × Int × Bool) :=
  bindE (addWaiter w.cond.hasWaiters) fun c1 =>
    match out with
    | .genEvent ev endT =>
      let ok := recvOk ev
      let remain := int64wrap (timeout - int64wrap (endT - beginT))
      bindE (removeWaiter c1) fun c2 =>
        .ok ({ w with cond := { w.cond with hasWaiters := c2 } }, remain, !ok)
    | .timerFired =>
      bindE (removeWaiter c1) fun c2 =>
        .ok ({ w with cond := { w.cond with hasWaiters := c2 } }, 0, false)

/-- Observable steps of one execution of `Wait`, for order-of-events
claims. -/
inductive Step
  | incrementCounter
  | captureGeneration
  | releaseLock
  | blockRecv (ev : WakeEvent)
  | acquireLock
  | decrementCounter
deriving DecidableEq

/-- Go defer semantics: deferred calls pushed in statement order run in
LIFO order when the surrounding function returns. -/
def runDefers (pushed : List Step) : List Step := pushed.reverse

/-- The defers pushed by `Wait`, in statement order:
`defer cond.removeWaiter()` then `defer cond.L.Lock()`. -/
def waitDeferred : List Step := [Step.decrementCounter, Step.acquireLock]

/-- Step trace of one execution of `Wait` waking for reason `ev`: the
body in program order (`addWaiter`; `ch := cond.signal`; `cond.L.Unlock()`;
`_, ok := <-ch`) followed by the deferred calls in LIFO order. -/
def waitTrace (ev : WakeEvent) : List Step :=
  [Step.incrementCounter, Step.captureGeneration, Step.releaseLock, Step.blockRecv ev] ++
    runDefers waitDeferred

/-- One abstract wait-entry (`addWaiter`) or wait-exit (`removeWaiter`)
on the counter. -/
inductive WaitOp
  | enter
  | exit
deriving DecidableEq

/-- Number of wait entries in a sequence. -/
def entries : List WaitOp → Nat
  | [] => 0
  | WaitOp.enter :: rest => entries rest + 1
  | WaitOp.exit :: rest => entries rest

/-- Number of wait exits in a sequence. -/
def exits : List WaitOp → Nat
  | [] => 0
  | WaitOp.enter :: rest => exits rest
  | WaitOp.exit :: rest => exits rest + 1

/-- Runs a sequence of entries/exits on the counter, propagating the
panics of `addWaiter` / `removeWaiter`. -/
def runOps : Nat → List WaitOp → Except String Nat
  | c, [] => .ok c
  | c, WaitOp.enter :: rest => bindE (addWaiter c) fun c1 => runOps c1 rest
  | c, WaitOp.exit :: rest => bindE (removeWaiter c) fun c1 => runOps c1 rest

/-- Decides whether a sequence is correctly paired starting from
counter value `c`: every exit matches an earlier entry, and the number
of waits simultaneously in progress stays representable in `uint64`. -/
def pairedFrom (c : Nat) : List WaitOp → Bool
  | [] => true
  | WaitOp.enter :: rest => decide (c + 1 < U64) && pairedFrom (c + 1) rest
  | WaitOp.exit :: rest => decide (0 < c) && pairedFrom (c - 1) rest

/-- A correctly paired sequence of wait entries and exits on a fresh
counter. -/
def Paired (ops : List WaitOp) : Prop := pairedFrom 0 ops = true

instance (ops : List WaitOp) : Decidable (Paired ops) := by
  unfold Paired
  infer_instance

/-- Invariant of a quiescent world: the stored `signal` reference is a
valid index, the channel it points to is open, and every allocated
channel is a capacity-0 channel with an empty buffer (all channels come
from `make(chan int, 0)` and an unbuffered channel never holds a
value). -/
def GenInv (w : World) : Prop :=
  w.cond.signal < w.chans.length ∧
  (getChan w.chans w.cond.signal).isClosed = false ∧
  ∀ ch ∈ w.chans, ch.capacity = 0 ∧ ch.buffer = []

instance (w : World) : Decidable (GenInv w) := by
  unfold GenInv
  infer_instance

/-- Iterates `Interrupt` from a freshly constructed instance. -/
def interruptN : Nat → Except String World
  | 0 => .ok (NewTimeoutCond 0)
  | n + 1 => bindE (interruptN n) Interrupt

lemma setChan_length (l : List Chan) (i : Nat) (ch : Chan) :
    (setChan l i ch).length = l.length := by
  induction l generalizing i with
  | nil => rfl
  | cons c rest ih =>
    cases i with
    | zero => rfl
    | succ j => simp [setChan, ih]

lemma getChan_append_left (l1 l2 : List Chan) (i : Nat) (h : i < l1.length) :
    getChan (l1 ++ l2) i = getChan l1 i := by
  induction l1 generalizing i with
  | nil => simp at h
  | cons c rest ih =>
    cases i with
    | zero => rfl
    | succ j =>
      simp only [List.length_cons, Nat.succ_lt_succ_iff] at h
      simpa [getChan] using ih j h

lemma getChan_append_len (l : List Chan) (ch : Chan) :
    getChan (l ++ [ch]) l.length = ch := by
  induction l with
  | nil => rfl
  | cons c rest ih => simpa [getChan] using ih

lemma getChan_set_self (l : List Chan) (i : Nat) (ch : Chan) (h : i < l.length) :
    getChan (setChan l i ch) i = ch := by
  induction l generalizing i with
  | nil => simp at h
  | cons c rest ih =>
    cases i with
    | zero => rfl
    | succ j =>
      simp only [List.length_cons, Nat.succ_lt_succ_iff] at h
      simpa [getChan, setChan] using ih j h

lemma mem_setChan (l : List Chan) (i : Nat) (ch x : Chan)
    (hx : x ∈ setChan l i ch) : x ∈ l ∨ x = ch := by
  induction l generalizing i with
  | nil => simp [setChan] at hx
  | cons c rest ih =>
    cases i with
    | zero =>
      rcases List.mem_cons.mp hx with h | h
      · right; exact h
      · left; exact List.mem_cons_of_mem _ h
    | succ j =>
      rcases List.mem_cons.mp hx with h | h
      · left; exact h ▸ List.mem_cons_self _ _
      · rcases ih j h with h1 | h1
        · left; exact List.mem_cons_of_mem _ h1
        · right; exact h1

lemma getChan_mem (l : List Chan) (i : Nat) (h : i < l.length) :
    getChan l i ∈ l := by
  induction l generalizing i with
  | nil => simp at h
  | cons c rest ih =>
    cases i with
    | zero => exact List.mem_cons_self _ _
    | succ j =>
      simp only [List.length_cons, Nat.succ_lt_succ_iff] at h
      exact List.mem_cons_of_mem _ (ih j h)

lemma U64_eq : U64 = 18446744073709551616 := by norm_num [U64]

lemma addWaiter_ok (c : Nat) (h : c + 1 < U64) : addWaiter c = .ok (c + 1) := by
  unfold addWaiter
  rw [Nat.mod_eq_of_lt h]
  simp

lemma removeWaiter_ok (c : Nat) (h0 : 0 < c) (h1 : c < U64) :
    removeWaiter c = .ok (c - 1) := by
  have hU := U64_eq
  have e : c + (U64 - 1) = (c - 1) + U64 := by omega
  have hlt : c - 1 < U64 := by omega
  have hne : ¬(c - 1 = U64 - 1) := by omega
  unfold removeWaiter
  rw [e, Nat.add_mod_right, Nat.mod_eq_of_lt hlt]
  simp [hne]

lemma removeWaiter_succ (c : Nat) (h : c + 1 < U64) :
    removeWaiter (c + 1) = .ok c := by
  have h2 := removeWaiter_ok (c + 1) (by omega) (by omega)
  rw [Nat.add_sub_cancel] at h2
  exact h2

lemma wait_eq (w : World) (ev : WakeEvent) (h : w.cond.hasWaiters + 1 < U64) :
    Wait w ev = .ok (w, isClosedEv ev) := by
  have h1 := addWaiter_ok w.cond.hasWaiters h
  have h2 := removeWaiter_succ w.cond.hasWaiters h
  unfold Wait
  rw [h1, bindE_ok]
  rw [h2, bindE_ok]
  cases ev <;> rfl

lemma waitWithTimeout_genEvent_eq (w : World) (timeout beginT endT : Int)
    (ev : WakeEvent) (h : w.cond.hasWaiters + 1 < U64) :
    WaitWithTimeout w timeout beginT (SelectOutcome.genEvent ev endT) =
      .ok (w, int64wrap (timeout - int64wrap (endT - beginT)), isClosedEv ev) := by
  have h1 := addWaiter_ok w.cond.hasWaiters h
  have h2 := removeWaiter_succ w.cond.hasWaiters h
  unfold WaitWithTimeout
  rw [h1, bindE_ok]
  rw [h2, bindE_ok]
  cases ev <;> rfl

lemma waitWithTimeout_timer_eq (w : World) (timeout beginT : Int)
    (h : w.cond.hasWaiters + 1 < U64) :
    WaitWithTimeout w timeout beginT SelectOutcome.timerFired = .ok (w, 0, false) := by
  have h1 := addWaiter_ok w.cond.hasWaiters h
  have h2 := removeWaiter_succ w.cond.hasWaiters h
  unfold WaitWithTimeout
  rw [h1, bindE_ok]
  rw [h2, bindE_ok]

lemma int64wrap_eq_self (x : Int) (h1 : -(2 ^ 63) ≤ x) (h2 : x < 2 ^ 63) :
    int64wrap x = x := by
  unfold int64wrap
  have e1 : (2 : Int) ^ 63 = 9223372036854775808 := by norm_num
  have e2 : (2 : Int) ^ 64 = 18446744073709551616 := by norm_num
  rw [e1] at h1 h2
  rw [e1, e2, Int.emod_eq_of_lt (by omega) (by omega)]
  omega

/-- The world produced by a successful `Interrupt`, written out
explicitly for use in proofs. -/
def interruptWorld (w : World) : World :=
  { chans := setChan w.chans w.cond.signal (closeChan (getChan w.chans w.cond.signal)) ++ [mkChan],
    cond := { w.cond with
      signal := (setChan w.chans w.cond.signal
        (closeChan (getChan w.chans w.cond.signal))).length } }

lemma interrupt_eq (w : World) (hopen : (getChan w.chans w.cond.signal).isClosed = false) :
    Interrupt w = .ok (interruptWorld w) := by
  simp [Interrupt, interruptWorld, hopen]

lemma interruptWorld_signal (w : World) :
    (interruptWorld w).cond.signal = w.chans.length := by
  simp [interruptWorld, setChan_length]

lemma interruptWorld_L (w : World) :
    (interruptWorld w).cond.L = w.cond.L := rfl

lemma interruptWorld_hasWaiters (w : World) :
    (interruptWorld w).cond.hasWaiters = w.cond.hasWaiters := rfl

lemma interruptWorld_old_chan (w : World) (hlt : w.cond.signal < w.chans.length) :
    getChan (interruptWorld w).chans w.cond.signal =
      closeChan (getChan w.chans w.cond.signal) := by
  unfold interruptWorld
  rw [getChan_append_left _ _ _ (by rw [setChan_length]; exact hlt)]
  exact getChan_set_self _ _ _ hlt

lemma interruptWorld_new_chan (w : World) :
    getChan (interruptWorld w).chans (interruptWorld w).cond.signal = mkChan := by
  unfold interruptWorld
  exact getChan_append_len _ _

lemma interruptWorld_inv (w : World) (h : GenInv w) : GenInv (interruptWorld w) := by
  obtain ⟨hlt, hopen, hall⟩ := h
  refine ⟨?_, ?_, ?_⟩
  · rw [interruptWorld_signal]
    simp [interruptWorld, setChan_length]
  · rw [interruptWorld_new_chan]
    rfl
  · intro ch hch
    rcases List.mem_append.mp hch with hch1 | hch1
    · rcases mem_setChan _ _ _ _ hch1 with hin | hrfl
      · exact hall ch hin
      · subst hrfl
        have hm := hall _ (getChan_mem w.chans w.cond.signal hlt)
        exact ⟨hm.1, hm.2⟩
    · rcases List.mem_singleton.mp hch1 with rfl
      exact ⟨rfl, rfl⟩

lemma runOps_nil (c : Nat) : runOps c [] = .ok c := rfl

lemma runOps_enter (c : Nat) (rest : List WaitOp) :
    runOps c (WaitOp.enter :: rest) = bindE (addWaiter c) fun c1 => runOps c1 rest := rfl

lemma runOps_exit (c : Nat) (rest : List WaitOp) :
    runOps c (WaitOp.exit :: rest) = bindE (removeWaiter c) fun c1 => runOps c1 rest := rfl

lemma runOps_paired (ops : List WaitOp) :
    ∀ c : Nat, c < U64 → pairedFrom c ops = true →
      runOps c ops = .ok (c + entries ops - exits ops) := by
  induction ops with
  | nil =>
    intro c hc hp
    rw [runOps_nil]
    simp [entries, exits]
  | cons op rest ih =>
    intro c hc hp
    cases op with
    | enter =>
      simp only [pairedFrom, Bool.and_eq_true, decide_eq_true_eq] at hp
      obtain ⟨hlt, hp1⟩ := hp
      rw [runOps_enter, addWaiter_ok c hlt, bindE_ok, ih (c + 1) hlt hp1]
      congr 1
      simp only [entries, exits]
      omega
    | exit =>
      simp only [pairedFrom, Bool.and_eq_true, decide_eq_true_eq] at hp
      obtain ⟨hpos, hp1⟩ := hp
      rw [runOps_exit, removeWaiter_ok c hpos hc, bindE_ok, ih (c - 1) (by omega) hp1]
      congr 1
      simp only [entries, exits]
      omega

lemma genInv_new (l : Nat) : GenInv (NewTimeoutCond l) := by
  refine ⟨?_, rfl, ?_⟩
  · simp [NewTimeoutCond]
  · intro ch hch
    rcases List.mem_singleton.mp hch with rfl
    exact ⟨rfl, rfl⟩

lemma interruptN_inv (n : Nat) : ∃ u, interruptN n = .ok u ∧ GenInv u := by
  induction n with
  | zero => exact ⟨NewTimeoutCond 0, rfl, genInv_new 0⟩
  | succ k ih =>
    obtain ⟨u, hu, hinv⟩ := ih
    refine ⟨interruptWorld u, ?_, interruptWorld_inv u hinv⟩
    unfold interruptN
    rw [hu, bindE_ok]
    exact interrupt_eq u hinv.2.1

lemma signal_cases (w : World) (r : Bool) :
    Signal w r = .error "send on closed channel" ∨
    Signal w r = .ok (w, true) ∨
    (∃ cs, Signal w r = .ok ({ w with chans := cs }, true)) ∨
    Signal w r = .ok (w, false) := by
  unfold Signal
  by_cases h1 : (getChan w.chans w.cond.signal).isClosed = true
  · left
    simp [h1]
  · cases r with
    | true =>
      right; left
      simp [h1]
    | false =>
      by_cases h2 : (getChan w.chans w.cond.signal).buffer.length <
          (getChan w.chans w.cond.signal).capacity
      · right; right; left
        refine ⟨setChan w.chans w.cond.signal
          { capacity := (getChan w.chans w.cond.signal).capacity,
            buffer := (getChan w.chans w.cond.signal).buffer ++ [1],
            isClosed := (getChan w.chans w.cond.signal).isClosed }, ?_⟩
        simp [h1, h2]
      · right; right; right
        simp [h1, h2]

/-- C1: for every completed call to `Wait`, the returned boolean is
`true` iff the waiter was woken by the generation being closed
(`Interrupt`), and `false` iff it was woken by a post-one delivery
(`Signal`).  The hypothesis says the waiter counter does not overflow
at entry, which is what "completed call" requires. -/
theorem wait_true_iff_closeAll (w : World) (ev : WakeEvent)
    (h : w.cond.hasWaiters + 1 < U64) :
    ∃ b : Bool, Wait w ev = .ok (w, b) ∧
      (b = true ↔ ev = WakeEvent.closedEv) ∧
      (b = false ↔ ∃ v, ev = WakeEvent.value v) := by
  refine ⟨isClosedEv ev, wait_eq w ev h, ?_, ?_⟩ <;>
    cases ev <;> simp [isClosedEv]

/-- Witness for C1 at a fresh instance woken by close-all. -/
theorem wait_true_iff_closeAll_witness :
    (NewTimeoutCond 0).cond.hasWaiters + 1 < U64 ∧
    ∃ b : Bool, Wait (NewTimeoutCond 0) WakeEvent.closedEv = .ok (NewTimeoutCond 0, b) ∧
      (b = true ↔ WakeEvent.closedEv = WakeEvent.closedEv) ∧
      (b = false ↔ ∃ v, WakeEvent.closedEv = WakeEvent.value v) :=
  ⟨by decide, wait_true_iff_closeAll (NewTimeoutCond 0) WakeEvent.closedEv (by decide)⟩

/-- C2: when `WaitWithTimeout` ends because a generation event is
observed, the returned remaining duration is exactly
`timeout - (endT - beginT)` with no clamping to zero (the hypotheses
only say the `int64` duration arithmetic does not wrap, so the value
may well be zero or negative), and the interrupted flag is `true` only
for close-all. -/
theorem waitWithTimeout_remaining_no_clamp (w : World)
    (timeout beginT endT : Int) (ev : WakeEvent)
    (hc : w.cond.hasWaiters + 1 < U64)
    (he1 : -(2 ^ 63) ≤ endT - beginT) (he2 : endT - beginT < 2 ^ 63)
    (hr1 : -(2 ^ 63) ≤ timeout - (endT - beginT))
    (hr2 : timeout - (endT - beginT) < 2 ^ 63) :
    WaitWithTimeout w timeout beginT (SelectOutcome.genEvent ev endT) =
      .ok (w, timeout - (endT - beginT), isClosedEv ev) ∧
    (isClosedEv ev = true ↔ ev = WakeEvent.closedEv) := by
  constructor
  · rw [waitWithTimeout_genEvent_eq w timeout beginT endT ev hc,
      int64wrap_eq_self _ he1 he2, int64wrap_eq_self _ hr1 hr2]
  · cases ev <;> simp [isClosedEv]

/-- Witness for C2 in which the generation event races past the
timeout: `timeout = 100`, `elapsed = 150`, so the returned remaining
duration is the unclamped negative value `-50`. -/
theorem waitWithTimeout_remaining_no_clamp_witness :
    ((NewTimeoutCond 0).cond.hasWaiters + 1 < U64 ∧
      -(2 ^ 63) ≤ (150 : Int) - 0 ∧ (150 : Int) - 0 < 2 ^ 63 ∧
      -(2 ^ 63) ≤ (100 : Int) - (150 - 0) ∧ (100 : Int) - (150 - 0) < 2 ^ 63) ∧
    WaitWithTimeout (NewTimeoutCond 0) 100 0
        (SelectOutcome.genEvent WakeEvent.closedEv 150) =
      .ok (NewTimeoutCond 0, -50, true) := by
  refine ⟨⟨by decide, by norm_num, by norm_num, by norm_num, by norm_num⟩, ?_⟩
  have h := waitWithTimeout_remaining_no_clamp (NewTimeoutCond 0) 100 0 150
    WakeEvent.closedEv (by decide) (by norm_num) (by norm_num) (by norm_num) (by norm_num)
  rw [h.1]
  norm_num [isClosedEv]

/-- C3: when the timeout elapses before any generation event,
`WaitWithTimeout` returns the pair `(0, false)` through the ordinary
return path (`Except.ok`), never through the panic path
(`Except.error`). -/
theorem waitWithTimeout_timeout_returns (w : World) (timeout beginT : Int)
    (hc : w.cond.hasWaiters + 1 < U64) :
    WaitWithTimeout w timeout beginT SelectOutcome.timerFired = .ok (w, 0, false) :=
  waitWithTimeout_timer_eq w timeout beginT hc

/-- Witness for C3 on a fresh instance with a 100ns timeout. -/
theorem waitWithTimeout_timeout_returns_witness :
    (NewTimeoutCond 0).cond.hasWaiters + 1 < U64 ∧
    WaitWithTimeout (NewTimeoutCond 0) 100 0 SelectOutcome.timerFired =
      .ok (NewTimeoutCond 0, 0, false) :=
  ⟨by decide, waitWithTimeout_timeout_returns (NewTimeoutCond 0) 100 0 (by decide)⟩

/-- C4: `Interrupt` closes the generation it is about to replace and
installs a fresh open one.  Afterwards, a waiter that captured the old
generation observes the channel closed (`ok = false`, so `Wait` returns
`interrupted = !ok = true`), while a `Wait` that captures the stored
generation strictly after `Interrupt` returned gets a different,
open channel on which a receive blocks (`recvNonBlocking = none`), so
it is not immediately woken. -/
theorem interrupt_wakes_current_blocks_future (w : World) (h : GenInv w) :
    ∃ w', Interrupt w = .ok w' ∧
      recvNonBlocking (getChan w'.chans w.cond.signal) = some (0, false) ∧
      (recvNonBlocking (getChan w'.chans w.cond.signal)).map (fun p => !p.2) =
        some true ∧
      w'.cond.signal ≠ w.cond.signal ∧
      recvNonBlocking (getChan w'.chans w'.cond.signal) = none := by
  obtain ⟨hlt, hopen, hall⟩ := h
  have hold : recvNonBlocking (getChan (interruptWorld w).chans w.cond.signal) =
      some (0, false) := by
    rw [interruptWorld_old_chan w hlt]
    have hb := (hall _ (getChan_mem w.chans w.cond.signal hlt)).2
    simp [recvNonBlocking, closeChan, hb]
  refine ⟨interruptWorld w, interrupt_eq w hopen, hold, ?_, ?_, ?_⟩
  · rw [hold]
    rfl
  · rw [interruptWorld_signal]
    omega
  · rw [interruptWorld_new_chan]
    rfl

/-- Witness for C4 on a fresh instance. -/
theorem interrupt_wakes_current_blocks_future_witness :
    GenInv (NewTimeoutCond 0) ∧
    ∃ w', Interrupt (NewTimeoutCond 0) = .ok w' ∧
      recvNonBlocking (getChan w'.chans (NewTimeoutCond 0).cond.signal) =
        some (0, false) ∧
      (recvNonBlocking (getChan w'.chans (NewTimeoutCond 0).cond.signal)).map
        (fun p => !p.2) = some true ∧
      w'.cond.signal ≠ (NewTimeoutCond 0).cond.signal ∧
      recvNonBlocking (getChan w'.chans w'.cond.signal) = none :=
  ⟨by decide, interrupt_wakes_current_blocks_future (NewTimeoutCond 0) (by decide)⟩

/-- C5: waiter-counter misuse is fatal, not silent: `removeWaiter` on a
zero counter (underflow) panics, and `addWaiter` on a counter at
`math.MaxUint64` (whose increment wraps to zero) panics. -/
theorem counter_misuse_panics :
    removeWaiter 0 = .error "removeWaiter called more than once after addWaiter" ∧
    addWaiter (U64 - 1) = .error "too many waiters; max is 18446744073709551615" := by
  constructor <;> rfl

/-- C6 counterexample: the claimed step order of `Wait` — decrement the
waiter counter and only then re-acquire the lock — is not the trace the
code produces, exhibited at the close-all wake event.  The two `defer`
statements (`defer removeWaiter` then `defer L.Lock`) run in LIFO
order, so the lock re-acquisition comes first. -/
theorem wait_order_claimed_counterexample :
    waitTrace WakeEvent.closedEv ≠
      [Step.incrementCounter, Step.captureGeneration, Step.releaseLock,
       Step.blockRecv WakeEvent.closedEv, Step.decrementCounter, Step.acquireLock] := by
  decide

/-- C6 amended: in every execution of `Wait`, the steps occur in this
order: increment the waiter counter, capture the current generation,
release the lock, block until a generation event, then re-acquire the
lock, then decrement the waiter counter (the deferred re-acquisition
and decrement run on every exit path, in LIFO defer order). -/
theorem wait_order_actual (ev : WakeEvent) :
    waitTrace ev =
      [Step.incrementCounter, Step.captureGeneration, Step.releaseLock,
       Step.blockRecv ev, Step.acquireLock, Step.decrementCounter] := rfl

/-- C7: for every correctly paired sequence of wait entries and exits,
the counter never panics and ends at `entries - exits`; `HasWaiters` is
`false` on a fresh instance, and on the resulting counter it is `true`
exactly when the entries exceed the exits. -/
theorem hasWaiters_tracks_pairing (ops : List WaitOp) (h : Paired ops) :
    HasWaiters (NewTimeoutCond 0).cond.hasWaiters = false ∧
    runOps (NewTimeoutCond 0).cond.hasWaiters ops = .ok (entries ops - exits ops) ∧
    (HasWaiters (entries ops - exits ops) = true ↔ exits ops < entries ops) := by
  refine ⟨rfl, ?_, ?_⟩
  · have h0 := runOps_paired ops 0 (by norm_num [U64]) h
    simpa using h0
  · simp only [HasWaiters, decide_eq_true_eq]
    omega

/-- Witness for C7 on the paired sequence enter, enter, exit, exit. -/
theorem hasWaiters_tracks_pairing_witness :
    Paired [WaitOp.enter, WaitOp.enter, WaitOp.exit, WaitOp.exit] ∧
    (HasWaiters (NewTimeoutCond 0).cond.hasWaiters = false ∧
      runOps (NewTimeoutCond 0).cond.hasWaiters
          [WaitOp.enter, WaitOp.enter, WaitOp.exit, WaitOp.exit] =
        .ok (entries [WaitOp.enter, WaitOp.enter, WaitOp.exit, WaitOp.exit] -
          exits [WaitOp.enter, WaitOp.enter, WaitOp.exit, WaitOp.exit]) ∧
      (HasWaiters (entries [WaitOp.enter, WaitOp.enter, WaitOp.exit, WaitOp.exit] -
          exits [WaitOp.enter, WaitOp.enter, WaitOp.exit, WaitOp.exit]) = true ↔
        exits [WaitOp.enter, WaitOp.enter, WaitOp.exit, WaitOp.exit] <
          entries [WaitOp.enter, WaitOp.enter, WaitOp.exit, WaitOp.exit])) :=
  ⟨by decide, hasWaiters_tracks_pairing _ (by decide)⟩

/-- C8: `Signal` called when no goroutine is blocked on the current
generation takes the `default` branch of its `select`: it neither
blocks nor panics, returns the world completely unchanged, and leaves
nothing buffered, so a receive on the (unchanged, open, empty,
capacity-0) channel by a waiter that starts waiting later still
blocks. -/
theorem signal_without_waiters_noop (w : World) (h : GenInv w) :
    Signal w false = .ok (w, false) ∧
    recvNonBlocking (getChan w.chans w.cond.signal) = none := by
  obtain ⟨hlt, hopen, hall⟩ := h
  have hb := (hall _ (getChan_mem w.chans w.cond.signal hlt)).2
  have hcap := (hall _ (getChan_mem w.chans w.cond.signal hlt)).1
  constructor
  · unfold Signal
    simp [hopen, hb, hcap]
  · simp [recvNonBlocking, hb, hopen]

/-- Witness for C8 on a fresh instance. -/
theorem signal_without_waiters_noop_witness :
    GenInv (NewTimeoutCond 0) ∧
    (Signal (NewTimeoutCond 0) false = .ok (NewTimeoutCond 0, false) ∧
      recvNonBlocking (getChan (NewTimeoutCond 0).chans
        (NewTimeoutCond 0).cond.signal) = none) :=
  ⟨by decide, signal_without_waiters_noop (NewTimeoutCond 0) (by decide)⟩

/-- C9: the stored generation channel is open whenever no operation is
in progress: construction installs an open channel, `Interrupt` from
any state satisfying the quiescent invariant succeeds (the channel it
closes is exactly the one it replaces, never an already-closed one) and
re-establishes the invariant, and consequently `Interrupt` can be
iterated from a fresh instance any number of times without
panicking. -/
theorem generation_always_open (w : World) (h : GenInv w) :
    (∀ l, GenInv (NewTimeoutCond l)) ∧
    (∃ w', Interrupt w = .ok w' ∧ GenInv w') ∧
    (∀ n, ∃ u, interruptN n = .ok u ∧ GenInv u) :=
  ⟨genInv_new,
   ⟨interruptWorld w, interrupt_eq w h.2.1, interruptWorld_inv w h⟩,
   interruptN_inv⟩

/-- Witness for C9 at a fresh instance. -/
theorem generation_always_open_witness :
    GenInv (NewTimeoutCond 0) ∧
    ((∀ l, GenInv (NewTimeoutCond l)) ∧
      (∃ w', Interrupt (NewTimeoutCond 0) = .ok w' ∧ GenInv w') ∧
      (∀ n, ∃ u, interruptN n = .ok u ∧ GenInv u)) :=
  ⟨by decide, generation_always_open (NewTimeoutCond 0) (by decide)⟩

/-- C10: `Signal` leaves every field of the `TimeoutCond` unchanged —
the lock reference, the stored generation channel reference, and the
waiter counter; its only possible effect is delivering one value on the
existing channel. -/
theorem signal_preserves_cond_fields (w : World) (r : Bool) (p : World × Bool)
    (h : Signal w r = .ok p) :
    p.1.cond.L = w.cond.L ∧ p.1.cond.signal = w.cond.signal ∧
    p.1.cond.hasWaiters = w.cond.hasWaiters := by
  rcases signal_cases w r with hs | hs | ⟨cs, hs⟩ | hs
  · rw [hs] at h
    exact absurd h (by simp)
  · rw [hs, Except.ok.injEq] at h
    subst h
    exact ⟨rfl, rfl, rfl⟩
  · rw [hs, Except.ok.injEq] at h
    subst h
    exact ⟨rfl, rfl, rfl⟩
  · rw [hs, Except.ok.injEq] at h
    subst h
    exact ⟨rfl, rfl, rfl⟩

/-- Witness for C10: `Signal` with no receiver on a fresh instance. -/
theorem signal_preserves_cond_fields_witness :
    Signal (NewTimeoutCond 0) false = .ok (NewTimeoutCond 0, false) ∧
    ((NewTimeoutCond 0, false).1.cond.L = (NewTimeoutCond 0).cond.L ∧
      (NewTimeoutCond 0, false).1.cond.signal = (NewTimeoutCond 0).cond.signal ∧
      (NewTimeoutCond 0, false).1.cond.hasWaiters = (NewTimeoutCond 0).cond.hasWaiters) :=
  ⟨rfl,
   signal_preserves_cond_fields (NewTimeoutCond 0) false (NewTimeoutCond 0, false) rfl⟩

end GoCommonsPool
